import Mathlib

set_option maxRecDepth 1000000

/-!
Shallow embedding of the Inventa document-registration core
(`src/services/crypto.ts`, `src/services/api.ts`, `src/services/storage.ts`),
together with theorems settling the specification claims about it.

Machine integers are modelled as `Nat` with explicit reduction `% 2^32`
where 32-bit overflow matters.  Byte buffers are `List Nat` with each
element `< 256`.  Platform primitives that the source calls but does not
implement (ECDSA sign/verify, SPKI key import, `Date` parsing) are passed
in as explicit function parameters, so every definition stays executable.
-/

namespace Inventa

/-! ### 32-bit word arithmetic (SHA-256 works on 32-bit words) -/

/-- Reduce a natural number to a 32-bit word. -/
def w32 (n : Nat) : Nat := n % 2 ^ 32

/-- 32-bit modular addition. -/
def add32 (a b : Nat) : Nat := (a + b) % 2 ^ 32

/-- Right rotation of a 32-bit word by `n` bits. -/
def rotr32 (n x : Nat) : Nat := w32 ((x >>> n) ||| (x <<< (32 - n)))

/-! ### SHA-256 (FIPS 180-4), the algorithm behind the source's
`crypto.subtle.digest('SHA-256', buffer)` calls in
`generateSHA256Hash` and `hashString` (crypto.ts lines 45–59). -/

/-- The 64 SHA-256 round constants. -/
def sha256K : List Nat :=
  [1116352408, 1899447441, 3049323471, 3921009573, 961987163,
   1508970993, 2453635748, 2870763221, 3624381080, 310598401,
   607225278, 1426881987, 1925078388, 2162078206, 2614888103,
   3248222580, 3835390401, 4022224774, 264347078, 604807628,
   770255983, 1249150122, 1555081692, 1996064986, 2554220882,
   2821834349, 2952996808, 3210313671, 3336571891, 3584528711,
   113926993, 338241895, 666307205, 773529912, 1294757372,
   1396182291, 1695183700, 1986661051, 2177026350, 2456956037,
   2730485921, 2820302411, 3259730800, 3345764771, 3516065817,
   3600352804, 4094571909, 275423344, 430227734, 506948616,
   659060556, 883997877, 958139571, 1322822218, 1537002063,
   1747873779, 1955562222, 2024104815, 2227730452, 2361852424,
   2428436474, 2756734187, 3204031479, 3329325298]

/-- SHA-256 big Σ₀. -/
def bigSigma0 (x : Nat) : Nat := rotr32 2 x ^^^ rotr32 13 x ^^^ rotr32 22 x

/-- SHA-256 big Σ₁. -/
def bigSigma1 (x : Nat) : Nat := rotr32 6 x ^^^ rotr32 11 x ^^^ rotr32 25 x

/-- SHA-256 small σ₀. -/
def smallSigma0 (x : Nat) : Nat := rotr32 7 x ^^^ rotr32 18 x ^^^ (x >>> 3)

/-- SHA-256 small σ₁. -/
def smallSigma1 (x : Nat) : Nat := rotr32 17 x ^^^ rotr32 19 x ^^^ (x >>> 10)

/-- The eight 32-bit words of a SHA-256 chaining state. -/
structure Hash8 where
  h0 : Nat
  h1 : Nat
  h2 : Nat
  h3 : Nat
  h4 : Nat
  h5 : Nat
  h6 : Nat
  h7 : Nat
deriving Repr, DecidableEq

/-- The SHA-256 initial chaining state. -/
def sha256Init : Hash8 :=
  ⟨1779033703, 3144134277, 1013904242, 2773480762,
   1359893119, 2600822924, 528734635, 1541459225⟩

/-- SHA-256 padding: append `0x80`, zeros, then the 64-bit big-endian
bit length, so the total length is a multiple of 64 bytes. -/
def padMessage (msg : List Nat) : List Nat :=
  let len := msg.length
  let bitLen := len * 8
  let zeros := (64 - (len + 9) % 64) % 64
  msg ++ [0x80] ++ List.replicate zeros 0 ++
    [(bitLen >>> 56) % 256, (bitLen >>> 48) % 256, (bitLen >>> 40) % 256,
     (bitLen >>> 32) % 256, (bitLen >>> 24) % 256, (bitLen >>> 16) % 256,
     (bitLen >>> 8) % 256, bitLen % 256]

/-- Assemble a 32-bit word from four bytes, big-endian. -/
def beWord (hi mh ml lo : Nat) : Nat :=
  (hi <<< 24) ||| (mh <<< 16) ||| (ml <<< 8) ||| lo

/-- The 16 message-schedule words of one 64-byte chunk, big-endian. -/
def chunkWords (chunk : List Nat) : List Nat :=
  (List.range 16).map fun i =>
    beWord (chunk.getD (4 * i) 0) (chunk.getD (4 * i + 1) 0)
      (chunk.getD (4 * i + 2) 0) (chunk.getD (4 * i + 3) 0)

/-- Extend the 16 schedule words to 64. -/
def extendWords (ws : List Nat) : List Nat :=
  (List.range 48).foldl
    (fun ws _ =>
      let n := ws.length
      ws ++ [add32
        (add32 (smallSigma1 (ws.getD (n - 2) 0)) (ws.getD (n - 7) 0))
        (add32 (smallSigma0 (ws.getD (n - 15) 0)) (ws.getD (n - 16) 0))])
    ws

/-- One SHA-256 compression round. -/
def sha256Round (W : List Nat)
    (s : Nat × Nat × Nat × Nat × Nat × Nat × Nat × Nat) (i : Nat) :
    Nat × Nat × Nat × Nat × Nat × Nat × Nat × Nat :=
  let (a, b, c, d, e, f, g, h) := s
  let ch := (e &&& f) ^^^ ((e ^^^ 0xffffffff) &&& g)
  let maj := (a &&& b) ^^^ (a &&& c) ^^^ (b &&& c)
  let t1 := add32 h (add32 (bigSigma1 e)
    (add32 ch (add32 (sha256K.getD i 0) (W.getD i 0))))
  let t2 := add32 (bigSigma0 a) maj
  (add32 t1 t2, a, b, c, add32 d t1, e, f, g)

/-- Compress one 64-byte chunk into the chaining state. -/
def compressChunk (H : Hash8) (chunk : List Nat) : Hash8 :=
  let W := extendWords (chunkWords chunk)
  let (a, b, c, d, e, f, g, h) :=
    (List.range 64).foldl (sha256Round W)
      (H.h0, H.h1, H.h2, H.h3, H.h4, H.h5, H.h6, H.h7)
  ⟨add32 H.h0 a, add32 H.h1 b, add32 H.h2 c, add32 H.h3 d,
   add32 H.h4 e, add32 H.h5 f, add32 H.h6 g, add32 H.h7 h⟩

/-- SHA-256 over a byte list, producing the final chaining state. -/
def sha256Words (msg : List Nat) : Hash8 :=
  let padded := padMessage msg
  let chunks := (List.range (padded.length / 64)).map
    fun i => (padded.drop (64 * i)).take 64
  chunks.foldl compressChunk sha256Init

/-- The four big-endian bytes of a 32-bit word. -/
def wordBytes (w : Nat) : List Nat :=
  [(w >>> 24) % 256, (w >>> 16) % 256, (w >>> 8) % 256, w % 256]

/-- The 32 digest bytes of SHA-256 over a byte list. -/
def sha256Bytes (msg : List Nat) : List Nat :=
  let H := sha256Words msg
  wordBytes H.h0 ++ wordBytes H.h1 ++ wordBytes H.h2 ++ wordBytes H.h3 ++
    wordBytes H.h4 ++ wordBytes H.h5 ++ wordBytes H.h6 ++ wordBytes H.h7

/-! ### Hex rendering (crypto.ts `bufferToHex`, lines 8–12) -/

/-- Digit accumulation for `natToHexChars`; the fuel argument keeps the
recursion structural (it never runs out when started at `n + 1`). -/
def natToHexCharsAux : Nat → Nat → List Char
  | 0, _ => []
  | fuel + 1, n =>
    if n < 16 then [Nat.digitChar n]
    else natToHexCharsAux fuel (n / 16) ++ [Nat.digitChar (n % 16)]

/-- The digit characters of JavaScript `b.toString(16)`: lowercase hex,
most significant digit first. -/
def natToHexChars (n : Nat) : List Char := natToHexCharsAux (n + 1) n

/-- JavaScript `.padStart(2, '0')` on a character list. -/
def padStart2 (cs : List Char) : List Char :=
  if cs.length < 2 then List.replicate (2 - cs.length) '0' ++ cs else cs

/-- One byte of `bufferToHex`: `b.toString(16).padStart(2, '0')`. -/
def byteHexChars (b : Nat) : List Char := padStart2 (natToHexChars b)

/-- Embeds `bufferToHex` (crypto.ts lines 8–12): each byte rendered as two
lowercase hex characters, joined. -/
def bufferToHex (buffer : List Nat) : String :=
  String.mk (buffer.map byteHexChars).flatten

/-- Embeds `generateSHA256Hash` (crypto.ts lines 45–49): SHA-256 digest of
the file bytes, rendered with `bufferToHex`. -/
def generateSHA256Hash (fileBytes : List Nat) : String :=
  bufferToHex (sha256Bytes fileBytes)

/-! ### UTF-8 (the source's `TextEncoder().encode`) -/

/-- UTF-8 encoding of one character, as `TextEncoder` produces it. -/
def utf8EncodeChar (c : Char) : List Nat :=
  let n := c.toNat
  if n < 0x80 then [n]
  else if n < 0x800 then [0xc0 ||| (n >>> 6), 0x80 ||| (n &&& 0x3f)]
  else if n < 0x10000 then
    [0xe0 ||| (n >>> 12), 0x80 ||| ((n >>> 6) &&& 0x3f), 0x80 ||| (n &&& 0x3f)]
  else
    [0xf0 ||| (n >>> 18), 0x80 ||| ((n >>> 12) &&& 0x3f),
     0x80 ||| ((n >>> 6) &&& 0x3f), 0x80 ||| (n &&& 0x3f)]

/-- UTF-8 bytes of a string. -/
def strBytes (s : String) : List Nat := (s.data.map utf8EncodeChar).flatten

/-- Embeds `hashString` (crypto.ts lines 54–59): SHA-256 of the UTF-8
bytes of a string, rendered as hex. -/
def hashString (s : String) : String := bufferToHex (sha256Bytes (strBytes s))

/-! ### JavaScript string helpers used by api.ts -/

/-- The characters JavaScript `String.prototype.trim` strips. -/
def isJsWhitespace (c : Char) : Bool :=
  c = ' ' || c = '\t' || c = '\n' || c = '\r' ||
    c = Char.ofNat 0x0b || c = Char.ofNat 0x0c || c = Char.ofNat 0xa0

/-- JavaScript `s.trim()`: whitespace removed from both ends. -/
def tsTrim (s : String) : String :=
  String.mk
    (((s.data.dropWhile isJsWhitespace).reverse.dropWhile isJsWhitespace).reverse)

/-- JavaScript `s.toLowerCase()` on the characters of a string. -/
def tsToLower (s : String) : String := String.mk (s.data.map Char.toLower)

/-! ### Data model (api.ts record shapes for the localStorage backend)

The api.ts operations each carry a Supabase branch and a localStorage
branch with the same decision logic; the localStorage branch is the
algorithm implemented in this repository (the Supabase branch delegates
lookup and ordering to the remote database), so it is the branch embedded
here.  Values the source draws from the environment — `Date.now()`,
`new Date().toISOString()`, random record identifiers, session tokens —
are passed in as explicit parameters. -/

/-- A stored user row (`inventa_users`), the `DbUser` shape of api.ts. -/
structure DbUser where
  id : String
  email : String
  username : String
  password_hash : String
  public_key : String
  private_key_encrypted : String
  created_at : String
deriving Repr, DecidableEq

/-- The `User` shape returned from the API (src/types/index.ts lines
12–19); key and timestamp fields are optional there. -/
structure User where
  id : String
  username : String
  email : String
  publicKey : Option String
  privateKey : Option String
  createdAt : Option String
deriving Repr, DecidableEq

/-- Proof-of-work metadata attached to a document. -/
structure ProofOfWorkMeta where
  filename : String
  hash : String
deriving Repr, DecidableEq

/-- Document metadata as built by api.ts. -/
structure DocMetadata where
  ownerName : String
  description : String
  documentType : String
  workType : String
  proofOfWork : Option ProofOfWorkMeta
deriving Repr, DecidableEq

/-- A stored document row (`inventa_documents`), the full `newDocument`
shape of `uploadDocument` (api.ts lines 511–528). -/
structure DbDocument where
  id : String
  user_id : String
  filename : String
  original_name : String
  hash : String
  signature : String
  timestamp : String
  encrypted_data : Option String
  file_size : Nat
  owner_name : String
  description : String
  document_type : String
  work_type : String
  proof_of_work_name : Option String
  proof_of_work_hash : Option String
  created_at : String
deriving Repr, DecidableEq

/-- The camelCase `Document` shape returned from the API. -/
structure Document where
  id : String
  userId : String
  filename : String
  originalName : String
  hash : String
  signature : String
  timestamp : String
  fileSize : Nat
  metadata : DocMetadata
deriving Repr, DecidableEq

/-- A stored login-history row (`inventa_login_history`), the
`loginRecord` shape of `recordLoginHistory` (api.ts lines 302–310). -/
structure DbLoginHistory where
  id : String
  user_id : Option String
  user_email : String
  user_name : String
  login_time : String
  status : String
  fail_reason : Option String
deriving Repr, DecidableEq

/-- The locally stored session (`inventa_session`), as written by
`register`/`login` (api.ts lines 268–272). -/
structure StoredSession where
  userId : String
  token : String
  expiresAt : String
deriving Repr, DecidableEq

/-- The localStorage state the api.ts operations read and write. -/
structure LocalState where
  users : List DbUser
  documents : List DbDocument
  history : List DbLoginHistory
  session : Option StoredSession
deriving Repr, DecidableEq

/-- The camelCase view of a stored document row, as built identically in
`verifyDocument` (api.ts lines 673–692) and `getUserDocuments`
(lines 762–781). -/
def dbToDocument (doc : DbDocument) : Document :=
  { id := doc.id
    userId := doc.user_id
    filename := doc.filename
    originalName := doc.original_name
    hash := doc.hash
    signature := doc.signature
    timestamp := doc.timestamp
    fileSize := doc.file_size
    metadata :=
      { ownerName := doc.owner_name
        description := doc.description
        documentType := doc.document_type
        workType := doc.work_type
        proofOfWork :=
          match doc.proof_of_work_name with
          | some nm =>
            if nm = "" then none
            else some { filename := nm, hash := doc.proof_of_work_hash.getD "" }
          | none => none } }

/-! ### Session read (api.ts `getCurrentUser`, localStorage branch,
lines 332–424).  `new Date(session.expiresAt)` and `new Date()` are the
platform's date parsing and clock; they enter as the `dateMs` function
and the `now` instant. -/

/-- Embeds `getCurrentUser` (api.ts lines 332–424, localStorage branch):
no session or an expired session yields no user (an expired session is
also removed); otherwise the stored user row named by the session is
returned, keys included. -/
def getCurrentUser (dateMs : String → Int) (now : Int) (st : LocalState) :
    Option User × LocalState :=
  match st.session with
  | none => (none, st)
  | some session =>
    if dateMs session.expiresAt < now then (none, { st with session := none })
    else
      match st.users.find? (fun u => u.id = session.userId) with
      | none => (none, st)
      | some foundUser =>
        (some { id := foundUser.id, username := foundUser.username,
                email := foundUser.email,
                publicKey := some foundUser.public_key,
                privateKey := some foundUser.private_key_encrypted,
                createdAt := some foundUser.created_at }, st)

/-- The session record of the storage.ts variant (`AuthSession` in the
type definitions): expiry is a millisecond number there. -/
structure AuthSession where
  userId : String
  token : String
  expiresAt : Int
deriving Repr, DecidableEq

/-- Embeds `SessionStorage.get` (storage.ts lines 121–131): an expired
session is cleared and reported absent.  Returns the read result and the
stored value afterwards. -/
def SessionStorage.get (now : Int) (stored : Option AuthSession) :
    Option AuthSession × Option AuthSession :=
  match stored with
  | none => (none, none)
  | some session =>
    if now > session.expiresAt then (none, none)
    else (some session, some session)

/-! ### Login (api.ts lines 187–322, localStorage branch) -/

/-- The login form data. -/
structure LoginData where
  email : String
  password : String
deriving Repr, DecidableEq

/-- The result shape of `login`. -/
structure LoginResult where
  success : Bool
  user : Option User
  message : String
deriving Repr, DecidableEq

/-- Embeds `recordLoginHistory` (api.ts lines 294–322, localStorage
branch): append one login event.  The generated record id and the
`new Date().toISOString()` instant are the `recId` and `loginTime`
parameters. -/
def recordLoginHistory (recId loginTime : String) (userId : Option String)
    (email username status : String) (failReason : Option String)
    (history : List DbLoginHistory) : List DbLoginHistory :=
  history ++ [{ id := recId, user_id := userId, user_email := email,
                user_name := username, login_time := loginTime,
                status := status, fail_reason := failReason }]

/-- Embeds `login` (api.ts lines 187–291, localStorage branch): normalize
the email, hash the password, look the user up by email, and answer with
a generic message on either failure cause while recording the specific
reason in the login history.  `recId`/`loginTime` feed
`recordLoginHistory`; `token`/`expiresAt` are the session values the
source mints from `Date.now()`. -/
def login (recId loginTime token expiresAt : String) (data : LoginData)
    (st : LocalState) : LoginResult × LocalState :=
  let email := tsTrim (tsToLower data.email)
  let passwordHash := hashString data.password
  match st.users.find? (fun u => u.email = email) with
  | none =>
    let hist := recordLoginHistory recId loginTime none email "" "failed"
      (some "User not found") st.history
    ({ success := false, user := none, message := "Invalid email or password" },
     { st with history := hist })
  | some foundUser =>
    if foundUser.password_hash ≠ passwordHash then
      let hist := recordLoginHistory recId loginTime (some foundUser.id) email
        foundUser.username "failed" (some "Invalid password") st.history
      ({ success := false, user := none, message := "Invalid email or password" },
       { st with history := hist })
    else
      let hist := recordLoginHistory recId loginTime (some foundUser.id)
        foundUser.email foundUser.username "success" none st.history
      ({ success := true,
         user := some { id := foundUser.id, username := foundUser.username,
                        email := foundUser.email,
                        publicKey := some foundUser.public_key,
                        privateKey := some foundUser.private_key_encrypted,
                        createdAt := some foundUser.created_at },
         message := "Login successful" },
       { st with
         session := some { userId := foundUser.id, token := token,
                           expiresAt := expiresAt },
         history := hist })

/-! ### Document upload (api.ts lines 445–569, localStorage branch) -/

/-- The upload form data (`UploadData` of api.ts); the file is its bytes
plus name and size, the optional proof-of-work file likewise. -/
structure UploadData where
  fileBytes : List Nat
  fileName : String
  fileSize : Nat
  ownerName : String
  description : String
  documentType : String
  workType : String
  proofOfWork : Option (String × List Nat)
deriving Repr, DecidableEq

/-- The result shape of `uploadDocument`. -/
structure UploadResult where
  success : Bool
  document : Option Document
  message : String
deriving Repr, DecidableEq

/-- Embeds the canonical signed message of `uploadDocument` (api.ts line
497): `hash:userId:timestamp` interpolated with `:` as delimiter. -/
def dataToSign (hash userId timestamp : String) : String :=
  hash ++ ":" ++ userId ++ ":" ++ timestamp

/-- Embeds `uploadDocument` (api.ts lines 445–569, localStorage branch):
require an authenticated user, fingerprint the file, reject a fingerprint
already in the registry (distinguishing same-owner from different-owner),
otherwise sign `dataToSign` with the caller's private key and insert the
new record.  `signFn` is the platform's ECDSA signing primitive
(`signData`); `timestamp` is the minted `new Date().toISOString()`;
`documentId` is the generated record id. -/
def uploadDocument (signFn : String → String → String)
    (dateMs : String → Int) (now : Int) (timestamp documentId : String)
    (userId : String) (data : UploadData) (st : LocalState) :
    UploadResult × LocalState :=
  let userSt := getCurrentUser dateMs now st
  match userSt.1 with
  | none =>
    ({ success := false, document := none, message := "User not authenticated" },
     userSt.2)
  | some user =>
    let st1 := userSt.2
    let hash := generateSHA256Hash data.fileBytes
    match st1.documents.find? (fun d => d.hash = hash) with
    | some existing =>
      ({ success := false, document := none,
         message :=
           if existing.user_id = userId then
             "You have already registered this document"
           else
             "This document has already been registered by another user" },
       st1)
    | none =>
      let signature := signFn (dataToSign hash userId timestamp)
        (user.privateKey.getD "")
      let proofOfWorkName := data.proofOfWork.map Prod.fst
      let proofOfWorkHash :=
        data.proofOfWork.map fun p => generateSHA256Hash p.2
      let newDocument : DbDocument :=
        { id := documentId, user_id := userId, filename := data.fileName,
          original_name := data.fileName, hash := hash,
          signature := signature, timestamp := timestamp,
          encrypted_data := none, file_size := data.fileSize,
          owner_name := data.ownerName, description := data.description,
          document_type := data.documentType, work_type := data.workType,
          proof_of_work_name := proofOfWorkName,
          proof_of_work_hash := proofOfWorkHash, created_at := timestamp }
      let document : Document :=
        { id := documentId, userId := userId, filename := data.fileName,
          originalName := data.fileName, hash := hash,
          signature := signature, timestamp := timestamp,
          fileSize := data.fileSize,
          metadata :=
            { ownerName := data.ownerName, description := data.description,
              documentType := data.documentType, workType := data.workType,
              proofOfWork :=
                match proofOfWorkName with
                | some nm =>
                  if nm = "" then none
                  else some { filename := nm,
                              hash := proofOfWorkHash.getD "" }
                | none => none } }
      ({ success := true, document := some document,
         message := "Document registered successfully!" },
       { st1 with documents := st1.documents ++ [newDocument] })

/-! ### Verification (api.ts lines 579–705, localStorage branch) -/

/-- The result shape of `verifyDocument`. -/
structure VerifyResult where
  verified : Bool
  document : Option Document
  owner : Option User
  message : String
  hash : Option String
deriving Repr, DecidableEq

/-- Embeds `verifyDocument` (api.ts lines 579–705, localStorage branch):
a typed fingerprint is trimmed, a file is hashed; the registry is then
looked up by the resulting fingerprint and the record and its owner are
returned on a hit. -/
def verifyDocument (fileOrHash : String ⊕ List Nat) (st : LocalState) :
    VerifyResult :=
  let hash :=
    match fileOrHash with
    | Sum.inl s => tsTrim s
    | Sum.inr fileBytes => generateSHA256Hash fileBytes
  match st.documents.find? (fun d => d.hash = hash) with
  | none =>
    { verified := false, document := none, owner := none,
      message := "Document not found. This document has not been registered yet.",
      hash := some hash }
  | some foundDoc =>
    let owner := (st.users.find? (fun u => u.id = foundDoc.user_id)).map
      fun userData =>
        { id := userData.id, username := userData.username,
          email := userData.email, publicKey := some userData.public_key,
          privateKey := none, createdAt := some userData.created_at }
    { verified := true, document := some (dbToDocument foundDoc),
      owner := owner,
      message := "Document verified! This document is registered.",
      hash := some hash }

/-- Embeds `getUserDocuments` (api.ts lines 707–788, localStorage
branch): the caller's rows, mapped to the camelCase shape and sorted
newest-first by the comparator
`(a, b) => new Date(b.timestamp).getTime() - new Date(a.timestamp).getTime()`
(a stable sort, as `Array.prototype.sort` is). -/
def getUserDocuments (dateMs : String → Int) (userId : String)
    (st : LocalState) : List Document :=
  ((st.documents.filter (fun d => d.user_id = userId)).map dbToDocument).mergeSort
    fun a b => decide (dateMs b.timestamp ≤ dateMs a.timestamp)

/-! ### Document deletion (storage.ts lines 108–114 and spec §6) -/

/-- A stored document row of the storage.ts variant (the `Document`
interface of the ORIGIN X type definitions). -/
structure StorageDocument where
  id : String
  ownerId : String
  filename : String
  originalHash : String
  encryptedData : String
  encryptionIv : String
  encryptionKey : String
  timestamp : String
  ownerSignature : String
  fileSize : Nat
  mimeType : String
deriving Repr, DecidableEq

/-- Embeds `DocumentStorage.delete` (storage.ts lines 108–114): drop the
row with the given id; report `false` when nothing was removed. -/
def DocumentStorage.delete (id : String)
    (documents : List StorageDocument) : Bool × List StorageDocument :=
  let filtered := documents.filter fun d => d.id ≠ id
  if filtered.length = documents.length then (false, documents)
  else (true, filtered)

/-- The `{success, error}` result shape the dashboard's `handleDelete`
reads off `deleteDocument`. -/
structure DeleteResult where
  success : Bool
  error : Option String
deriving Repr, DecidableEq

/-- Modelled from the spec: the api-level `deleteDocument` function is
missing from the sources here (only its dashboard caller `handleDelete`
and the storage primitive `DocumentStorage.delete` are present).  Spec §6
gives `deleteDocument(documentId) → success or "not owner" error` and §3
makes a document `deletable only by its owner`: look the document up,
require the caller to be its owner, and remove it through
`DocumentStorage.delete`; a caller who is not the owner gets the
"not owner" error and the store is untouched. -/
def deleteDocument (callerId documentId : String)
    (documents : List StorageDocument) :
    DeleteResult × List StorageDocument :=
  match documents.find? (fun d => d.id = documentId) with
  | none => ({ success := false, error := some "Document not found" }, documents)
  | some doc =>
    if doc.ownerId = callerId then
      let res := DocumentStorage.delete documentId documents
      ({ success := res.1, error := none }, res.2)
    else
      ({ success := false, error := some "You are not the owner of this document" },
       documents)

/-! ### Signature verification (crypto.ts lines 188–216)

`atob`, `crypto.subtle.importKey` and `crypto.subtle.verify` are platform
primitives; `atob` is modelled in full (forgiving-base64 decode), while
the key import and the ECDSA check enter as function parameters that throw
(`Except`), exactly as the source's calls may.  The source awaits the
key import but returns the final `crypto.subtle.verify(...)` promise
without awaiting it, so a rejection of that call escapes the catch. -/

/-- ASCII whitespace, the only characters forgiving-base64 strips before
decoding: TAB, LF, FF, CR and SPACE. -/
def isAsciiWhitespace (c : Char) : Bool :=
  c = '\t' || c = '\n' || c = Char.ofNat 0x0c || c = '\r' || c = ' '

/-- The value of one base64 alphabet character, `none` outside the
alphabet. -/
def base64CharVal (c : Char) : Option Nat :=
  if 'A' ≤ c ∧ c ≤ 'Z' then some (c.toNat - 65)
  else if 'a' ≤ c ∧ c ≤ 'z' then some (c.toNat - 97 + 26)
  else if '0' ≤ c ∧ c ≤ '9' then some (c.toNat - 48 + 52)
  else if c = '+' then some 62
  else if c = '/' then some 63
  else none

/-- Drop up to two trailing `'='` padding characters. -/
def dropBase64Pad (cs : List Char) : List Char :=
  let r := cs.reverse
  let r1 := if r.headD ' ' = '=' then r.tail else r
  let r2 := if r1.headD ' ' = '=' then r1.tail else r1
  r2.reverse

/-- Decode one group of up to four 6-bit values into bytes. -/
def base64Group : List Nat → List Nat
  | [a, b, c, d] =>
    [(a <<< 2) ||| (b >>> 4), ((b &&& 15) <<< 4) ||| (c >>> 2),
     ((c &&& 3) <<< 6) ||| d]
  | [a, b, c] => [(a <<< 2) ||| (b >>> 4), ((b &&& 15) <<< 4) ||| (c >>> 2)]
  | [a, b] => [(a <<< 2) ||| (b >>> 4)]
  | _ => []

/-- The platform's `atob`: forgiving-base64 decode, throwing
(`Except.error`) on input that is not base64. -/
def atob (s : String) : Except String (List Nat) :=
  let cs := s.data.filter fun c => !isAsciiWhitespace c
  let body := if cs.length % 4 = 0 then dropBase64Pad cs else cs
  if body.length % 4 = 1 then Except.error "InvalidCharacterError"
  else if body.any (fun c => (base64CharVal c).isNone) then
    Except.error "InvalidCharacterError"
  else
    let vals := body.map fun c => (base64CharVal c).getD 0
    Except.ok
      ((List.range ((vals.length + 3) / 4)).map
        (fun i => base64Group ((vals.drop (4 * i)).take 4))).flatten

/-- Embeds `base64ToBuffer` (crypto.ts lines 32–39): `atob` plus byte
extraction; the `atob` throw is the only failure. -/
def base64ToBuffer (base64 : String) : Except String (List Nat) :=
  atob base64

/-- Embeds `verifySignature` (crypto.ts lines 188–216): decode the key,
then import it (awaited), decode the signature, then `return` the
platform verify call.  The `try/catch` turns the `atob` throws and the
awaited import rejection into `false`; the final
`crypto.subtle.verify(...)` is returned without `await`, so its outcome —
verdict or rejection — passes to the caller unchanged, a rejection
escaping the catch. -/
def verifySignature {κ : Type} (importKey : List Nat → Except String κ)
    (subtleVerify : κ → List Nat → List Nat → Except String Bool)
    (data signatureBase64 publicKeyBase64 : String) : Except String Bool :=
  match base64ToBuffer publicKeyBase64 with
  | Except.error _ => Except.ok false
  | Except.ok publicKeyBuffer =>
    match importKey publicKeyBuffer with
    | Except.error _ => Except.ok false
    | Except.ok publicKey =>
      match base64ToBuffer signatureBase64 with
      | Except.error _ => Except.ok false
      | Except.ok signatureBuffer =>
        subtleVerify publicKey signatureBuffer (strBytes data)

/-- The sixteen lowercase hexadecimal digit characters. -/
def hexChars : List Char := "0123456789abcdef".data

end Inventa

set_option maxRecDepth 100000 in
/-- SHA-256 test vector: the digest of the empty input matches FIPS 180-4. -/
theorem Inventa.sha256_empty_vector :
    Inventa.generateSHA256Hash [] =
      "e3b0c44298fc1c149afbf4c8996fb92427ae41e4649b934ca495991b7852b855" := by
  decide

set_option maxRecDepth 400000 in
/-- SHA-256 test vector: the two-chunk FIPS 180-4 message hashes to the
published digest, exercising padding, chunk split and schedule extension. -/
theorem Inventa.sha256_twochunk_vector :
    Inventa.hashString "abcdbcdecdefdefgefghfghighijhijkijkljklmklmnlmnomnopnopq" =
      "248d6a61d20638b8e5c026930c3e6039a33ce45964ff2167f6ecedd419db06c1" := by
  decide

namespace Inventa

/-! ### Helper lemmas about the hex rendering -/

theorem natToHexCharsAux_small {fuel n : Nat} (hn : n < 16) (hf : 0 < fuel) :
    natToHexCharsAux fuel n = [Nat.digitChar n] := by
  cases fuel with
  | zero => omega
  | succ f => simp [natToHexCharsAux, hn]

theorem byteHexChars_small {b : Nat} (hb : b < 16) :
    byteHexChars b = ['0', Nat.digitChar b] := by
  rw [byteHexChars, natToHexChars, natToHexCharsAux_small hb (Nat.succ_pos b)]
  simp [padStart2]

theorem byteHexChars_mid {b : Nat} (h16 : 16 ≤ b) (hb : b < 256) :
    byteHexChars b = [Nat.digitChar (b / 16), Nat.digitChar (b % 16)] := by
  have hq : b / 16 < 16 := by omega
  rw [byteHexChars, natToHexChars]
  have hfe : b + 1 = (b - 1) + 1 + 1 := by omega
  rw [hfe, natToHexCharsAux]
  have hnot : ¬ b < 16 := by omega
  rw [if_neg hnot, natToHexCharsAux_small hq (by omega)]
  simp [padStart2]

theorem byteHexChars_len {b : Nat} (hb : b < 256) : (byteHexChars b).length = 2 := by
  rcases Nat.lt_or_ge b 16 with h | h
  · rw [byteHexChars_small h]; rfl
  · rw [byteHexChars_mid h hb]; rfl

theorem digitChar_mem_hexChars : ∀ m, m < 16 → Nat.digitChar m ∈ hexChars := by
  decide

theorem byteHexChars_hex {b : Nat} (hb : b < 256) {c : Char}
    (hc : c ∈ byteHexChars b) : c ∈ hexChars := by
  rcases Nat.lt_or_ge b 16 with h | h
  · rw [byteHexChars_small h] at hc
    rcases List.mem_cons.mp hc with rfl | hc
    · decide
    · rcases List.mem_singleton.mp hc with rfl
      exact digitChar_mem_hexChars b h
  · rw [byteHexChars_mid h hb] at hc
    rcases List.mem_cons.mp hc with rfl | hc
    · exact digitChar_mem_hexChars _ (by omega)
    · rcases List.mem_singleton.mp hc with rfl
      exact digitChar_mem_hexChars _ (Nat.mod_lt b (by omega))

/-! ### Helper lemmas about the SHA-256 digest bytes -/

theorem wordBytes_lt {w b : Nat} (hb : b ∈ wordBytes w) : b < 256 := by
  simp only [wordBytes, List.mem_cons, List.not_mem_nil, or_false] at hb
  rcases hb with rfl | rfl | rfl | rfl <;> exact Nat.mod_lt _ (by omega)

theorem sha256Bytes_len (msg : List Nat) : (sha256Bytes msg).length = 32 := by
  simp [sha256Bytes, wordBytes]

theorem sha256Bytes_lt {msg : List Nat} {b : Nat} (hb : b ∈ sha256Bytes msg) :
    b < 256 := by
  simp only [sha256Bytes, List.mem_append, or_assoc] at hb
  rcases hb with h | h | h | h | h | h | h | h <;> exact wordBytes_lt h

theorem bufferToHex_length {l : List Nat} (h : ∀ b ∈ l, b < 256) :
    (bufferToHex l).length = 2 * l.length := by
  show ((l.map byteHexChars).flatten).length = 2 * l.length
  induction l with
  | nil => rfl
  | cons a t ih =>
    simp only [List.map_cons, List.flatten_cons, List.length_append,
      List.length_cons]
    rw [byteHexChars_len (h a (List.mem_cons_self a t)),
      ih fun b hb => h b (List.mem_cons_of_mem a hb)]
    ring

theorem generateSHA256Hash_length (fileBytes : List Nat) :
    (generateSHA256Hash fileBytes).length = 64 := by
  rw [generateSHA256Hash,
    bufferToHex_length fun b hb => sha256Bytes_lt hb, sha256Bytes_len]

theorem generateSHA256Hash_chars {fileBytes : List Nat} {c : Char}
    (hc : c ∈ (generateSHA256Hash fileBytes).data) : c ∈ hexChars := by
  have hc' : c ∈ ((sha256Bytes fileBytes).map byteHexChars).flatten := hc
  rcases List.mem_flatten.mp hc' with ⟨l, hl, hcl⟩
  rcases List.mem_map.mp hl with ⟨b, hb, rfl⟩
  exact byteHexChars_hex (sha256Bytes_lt hb) hcl

/-! ### Helper lemmas about trimming -/

theorem dropWhile_eq_self {p : Char → Bool} {l : List Char}
    (h : ∀ c ∈ l, p c = false) : l.dropWhile p = l := by
  cases l with
  | nil => rfl
  | cons a t => simp [List.dropWhile_cons, h a (List.mem_cons_self a t)]

theorem tsTrim_eq_self {s : String}
    (h : ∀ c ∈ s.data, isJsWhitespace c = false) : tsTrim s = s := by
  rw [tsTrim, dropWhile_eq_self h,
    dropWhile_eq_self fun c hc => h c (List.mem_reverse.mp hc),
    List.reverse_reverse]

theorem hexChars_not_ws : ∀ c ∈ hexChars, isJsWhitespace c = false := by
  decide

theorem tsTrim_hash (fileBytes : List Nat) :
    tsTrim (generateSHA256Hash fileBytes) = generateSHA256Hash fileBytes :=
  tsTrim_eq_self fun _ hc => hexChars_not_ws _ (generateSHA256Hash_chars hc)

/-! ### Helper lemmas about `getCurrentUser` -/

theorem getCurrentUser_documents (dateMs : String → Int) (now : Int)
    (st : LocalState) :
    (getCurrentUser dateMs now st).2.documents = st.documents ∧
    (getCurrentUser dateMs now st).2.users = st.users ∧
    (getCurrentUser dateMs now st).2.history = st.history := by
  rw [getCurrentUser]
  rcases st.session with _ | session
  · exact ⟨rfl, rfl, rfl⟩
  · dsimp only
    split
    · exact ⟨rfl, rfl, rfl⟩
    · cases st.users.find? fun u => u.id = session.userId <;>
        exact ⟨rfl, rfl, rfl⟩

end Inventa

namespace Inventa

/-- C5: for every byte input, including the empty input, the hashing
operation succeeds and deterministically returns a fingerprint rendered
as a lowercase hexadecimal string of exactly 64 characters; equal inputs
always yield equal outputs. -/
theorem generateSHA256Hash_hex64 (fileBytes : List Nat) :
    (generateSHA256Hash fileBytes).length = 64 ∧
    (∀ c ∈ (generateSHA256Hash fileBytes).data, c ∈ hexChars) ∧
    ∀ other : List Nat, fileBytes = other →
      generateSHA256Hash fileBytes = generateSHA256Hash other :=
  ⟨generateSHA256Hash_length fileBytes,
   fun _ hc => generateSHA256Hash_chars hc,
   fun _ h => by rw [h]⟩

/-- The C5 fingerprint-format theorem evaluated at the empty input. -/
theorem generateSHA256Hash_hex64_witness :
    (generateSHA256Hash []).length = 64 ∧
    generateSHA256Hash [] = generateSHA256Hash [] :=
  ⟨(generateSHA256Hash_hex64 []).1, (generateSHA256Hash_hex64 []).2.2 [] rfl⟩

/-- C4: a stored session whose expiry instant lies in the past at the
moment of the read is treated as absent — `getCurrentUser` returns no
user and also removes the record, and `SessionStorage.get` likewise
reports it absent — even though the record was never explicitly deleted
beforehand. -/
theorem getCurrentUser_expired_session_absent (dateMs : String → Int)
    (now : Int) (st : LocalState) (session : StoredSession)
    (hs : st.session = some session) (hexp : dateMs session.expiresAt < now)
    (sess2 : AuthSession) (now2 : Int) (hexp2 : sess2.expiresAt < now2) :
    (getCurrentUser dateMs now st).1 = none ∧
    (getCurrentUser dateMs now st).2.session = none ∧
    (SessionStorage.get now2 (some sess2)).1 = none := by
  unfold getCurrentUser SessionStorage.get
  rw [hs]
  refine ⟨?_, ?_, ?_⟩ <;> simp [hexp, hexp2]

/-- The C4 theorem at a concrete session expired one instant before the
read. -/
theorem getCurrentUser_expired_session_absent_witness :
    (getCurrentUser (fun _ => (0 : Int)) 1
      ⟨[], [], [], some ⟨"u", "t", "e"⟩⟩).1 = none ∧
    (getCurrentUser (fun _ => (0 : Int)) 1
      ⟨[], [], [], some ⟨"u", "t", "e"⟩⟩).2.session = none ∧
    (SessionStorage.get 1 (some ⟨"u", "t", 0⟩)).1 = none :=
  getCurrentUser_expired_session_absent (fun _ => (0 : Int)) 1 _ _ rfl
    (by decide) ⟨"u", "t", 0⟩ 1 (by decide)

/-- C3: for a registered document, verification by its fingerprint typed
as a string and verification by re-uploading the original file return
the very same result, and that result is `verified = true` (carrying the
same document and owner data, being one and the same record). -/
theorem verifyDocument_hash_eq_file (st : LocalState) (d : DbDocument)
    (fileBytes : List Nat) (hmem : d ∈ st.documents)
    (hhash : d.hash = generateSHA256Hash fileBytes) :
    verifyDocument (Sum.inl d.hash) st = verifyDocument (Sum.inr fileBytes) st ∧
    (verifyDocument (Sum.inr fileBytes) st).verified = true := by
  have htrim : tsTrim d.hash = d.hash := by
    rw [hhash]; exact tsTrim_hash fileBytes
  constructor
  · unfold verifyDocument
    dsimp only
    rw [htrim, hhash]
  · have hsome : (st.documents.find? fun d' =>
        d'.hash = generateSHA256Hash fileBytes).isSome :=
      List.find?_isSome.mpr ⟨d, hmem, by simp [hhash]⟩
    obtain ⟨doc, hdoc⟩ := Option.isSome_iff_exists.mp hsome
    unfold verifyDocument
    dsimp only
    rw [hdoc]

/-- The C3 theorem at a concrete one-document registry whose single
record fingerprints the empty file. -/
theorem verifyDocument_hash_eq_file_witness :
    (verifyDocument (Sum.inr [])
      ⟨[], [⟨"id1", "u1", "f", "f", generateSHA256Hash [], "sig", "t",
             none, 0, "o", "d", "pdf", "human_made", none, none, "t"⟩],
       [], none⟩).verified = true :=
  (verifyDocument_hash_eq_file _ _ [] (List.mem_singleton.mpr rfl) rfl).2

/-- C9: deleting a stored document succeeds exactly when the caller is
the document's owner; any other caller gets the "not owner" error and the
store is left unchanged, so a document can only ever be removed by its
owner. -/
theorem deleteDocument_owner_only (callerId documentId : String)
    (documents : List StorageDocument) (doc : StorageDocument)
    (hfind : documents.find? (fun d => d.id = documentId) = some doc) :
    ((deleteDocument callerId documentId documents).1.success = true ↔
      doc.ownerId = callerId) ∧
    (doc.ownerId = callerId →
      (deleteDocument callerId documentId documents).2 =
        documents.filter fun d => d.id ≠ documentId) ∧
    (doc.ownerId ≠ callerId →
      (deleteDocument callerId documentId documents).1.error =
        some "You are not the owner of this document" ∧
      (deleteDocument callerId documentId documents).2 = documents) := by
  have hmem : doc ∈ documents := List.mem_of_find?_eq_some hfind
  have hid : doc.id = documentId := by
    have := List.find?_some hfind
    simpa using this
  have hlt : (documents.filter fun d => d.id ≠ documentId).length <
      documents.length := by
    rw [List.length_filter_lt_length_iff_exists]
    exact ⟨doc, hmem, by simp [hid]⟩
  unfold deleteDocument DocumentStorage.delete
  rw [hfind]
  dsimp only
  rcases eq_or_ne doc.ownerId callerId with h | h
  · rw [if_pos h]
    have hcond : ¬ ∀ a ∈ documents, ¬ a.id = documentId :=
      fun hall => hall doc hmem hid
    refine ⟨?_, fun _ => ?_, fun hc => absurd h hc⟩ <;> simp [h, hcond]
  · rw [if_neg h]
    exact ⟨by simp [h], fun hc => absurd hc h, fun _ => ⟨rfl, rfl⟩⟩

/-- The C9 theorem at a concrete one-document store: the owner's delete
succeeds, a stranger's delete errors and changes nothing. -/
theorem deleteDocument_owner_only_witness :
    (deleteDocument "alice" "d"
      [⟨"d", "alice", "f", "h", "e", "iv", "k", "t", "s", 0, "m"⟩]).1.success =
      true ∧
    (deleteDocument "bob" "d"
      [⟨"d", "alice", "f", "h", "e", "iv", "k", "t", "s", 0, "m"⟩]).1.error =
      some "You are not the owner of this document" :=
  ⟨(deleteDocument_owner_only "alice" "d"
      [⟨"d", "alice", "f", "h", "e", "iv", "k", "t", "s", 0, "m"⟩]
      ⟨"d", "alice", "f", "h", "e", "iv", "k", "t", "s", 0, "m"⟩
      (by decide)).1.mpr rfl,
   ((deleteDocument_owner_only "bob" "d"
      [⟨"d", "alice", "f", "h", "e", "iv", "k", "t", "s", 0, "m"⟩]
      ⟨"d", "alice", "f", "h", "e", "iv", "k", "t", "s", 0, "m"⟩
      (by decide)).2.2 (by decide)).1⟩

end Inventa

namespace Inventa

/-- C1 fails as stated: there is no fixed delimiter for which the upload
signature message is fingerprint, then timestamp, then owner identifier —
for fingerprint "a", owner "b", timestamp "c" the string actually signed
is "a:b:c", whose last character is the timestamp's, while the claimed
order would end in the owner's. -/
theorem dataToSign_order_cex :
    ¬ ∃ delim : String, ∀ hash userId timestamp : String,
      dataToSign hash userId timestamp =
        hash ++ delim ++ timestamp ++ delim ++ userId := by
  rintro ⟨d, hd⟩
  have e : dataToSign "a" "b" "c" = "a:b:c" := by decide
  have h1 := e.symm.trans (hd "a" "b" "c")
  have h2 := congrArg String.data h1
  rw [String.data_append] at h2
  have hb : ("b" : String).data = ['b'] := by decide
  rw [hb] at h2
  have h3 := congrArg List.getLast? h2
  rw [List.getLast?_concat] at h3
  exact absurd h3 (by decide)

/-- C1 (amended): the string signed for a document registration is the
concatenation, with ":" as the fixed delimiter, of the document
fingerprint, then the owner identifier, then the upload timestamp —
owner before timestamp. -/
theorem uploadDocument_signed_message (signFn : String → String → String)
    (dateMs : String → Int) (now : Int) (timestamp documentId userId : String)
    (data : UploadData) (st : LocalState) (user : User)
    (huser : (getCurrentUser dateMs now st).1 = some user)
    (hnew : st.documents.find?
      (fun d => d.hash = generateSHA256Hash data.fileBytes) = none) :
    ∃ doc,
      (uploadDocument signFn dateMs now timestamp documentId userId data
        st).1.document = some doc ∧
      doc.signature = signFn
        (generateSHA256Hash data.fileBytes ++ ":" ++ userId ++ ":" ++ timestamp)
        (user.privateKey.getD "") := by
  obtain ⟨hdocs, -, -⟩ := getCurrentUser_documents dateMs now st
  unfold uploadDocument
  dsimp only
  rw [huser]
  dsimp only
  rw [hdocs, hnew]
  dsimp only
  exact ⟨_, rfl, rfl⟩

/-- The C1 amended theorem at a concrete authenticated, fresh upload. -/
theorem uploadDocument_signed_message_witness :
    ∃ doc,
      (uploadDocument (fun m k => m ++ "#" ++ k) (fun _ => (0 : Int)) 0 "ts"
        "docid" "u1" ⟨[], "f", 0, "o", "de", "pdf", "human_made", none⟩
        ⟨[⟨"u1", "a@b.c", "al", "ph", "pub", "priv", "t0"⟩], [], [],
         some ⟨"u1", "tok", "exp"⟩⟩).1.document = some doc ∧
      doc.signature = (fun m k : String => m ++ "#" ++ k)
        (generateSHA256Hash [] ++ ":" ++ "u1" ++ ":" ++ "ts")
        ((some "priv").getD "") :=
  uploadDocument_signed_message (fun m k => m ++ "#" ++ k) (fun _ => (0 : Int))
    0 "ts" "docid" "u1" ⟨[], "f", 0, "o", "de", "pdf", "human_made", none⟩
    ⟨[⟨"u1", "a@b.c", "al", "ph", "pub", "priv", "t0"⟩], [], [],
     some ⟨"u1", "tok", "exp"⟩⟩
    ⟨"u1", "al", "a@b.c", some "pub", some "priv", some "t0"⟩ (by decide) rfl

/-- C6: for every message, signature string and public-key string,
`verifySignature` answers `false` — not a throw — whenever the key fails
to base64-decode, the decoded key fails to import, or the signature fails
to base64-decode (every way signature or key input can be malformed);
otherwise it passes the platform verify call's outcome through unchanged.
Since the platform's ECDSA verify resolves with a boolean for every byte
input under a successfully imported key, the call then always terminates
with a boolean. -/
theorem verifySignature_false_on_malformed {κ : Type}
    (importKey : List Nat → Except String κ)
    (subtleVerify : κ → List Nat → List Nat → Except String Bool)
    (data sigB64 keyB64 : String) :
    (verifySignature importKey subtleVerify data sigB64 keyB64 =
        Except.ok false ∨
      ∃ kb k sb, base64ToBuffer keyB64 = Except.ok kb ∧
        importKey kb = Except.ok k ∧
        base64ToBuffer sigB64 = Except.ok sb ∧
        verifySignature importKey subtleVerify data sigB64 keyB64 =
          subtleVerify k sb (strBytes data)) ∧
    ((∀ k sb, ∃ b, subtleVerify k sb (strBytes data) = Except.ok b) →
      ∃ b, verifySignature importKey subtleVerify data sigB64 keyB64 =
        Except.ok b) := by
  unfold verifySignature
  cases hkb : base64ToBuffer keyB64 with
  | error e => exact ⟨Or.inl rfl, fun _ => ⟨false, rfl⟩⟩
  | ok kb =>
    dsimp only
    cases hk : importKey kb with
    | error e => exact ⟨Or.inl rfl, fun _ => ⟨false, rfl⟩⟩
    | ok k =>
      dsimp only
      cases hsb : base64ToBuffer sigB64 with
      | error e => exact ⟨Or.inl rfl, fun _ => ⟨false, rfl⟩⟩
      | ok sb =>
        dsimp only
        refine ⟨Or.inr ⟨kb, k, sb, rfl, hk, rfl, rfl⟩, fun hres => hres k sb⟩

/-- The C6 theorem at a key string that is not base64 (`"!"`): the call
answers `false` instead of throwing, and still returns a boolean. -/
theorem verifySignature_false_on_malformed_witness :
    (verifySignature (fun _ => Except.ok ())
        (fun _ _ _ => Except.ok true) "m" "AAAA" "!" = Except.ok false ∨
      ∃ kb k sb, base64ToBuffer "!" = Except.ok kb ∧
        (Except.ok () : Except String Unit) = Except.ok k ∧
        base64ToBuffer "AAAA" = Except.ok sb ∧
        verifySignature (fun _ => Except.ok ())
          (fun _ _ _ => Except.ok true) "m" "AAAA" "!" = Except.ok true) ∧
    ∃ b, verifySignature (fun _ => Except.ok ())
        (fun _ _ _ => Except.ok true) "m" "AAAA" "!" = Except.ok b :=
  have h := verifySignature_false_on_malformed (fun _ => Except.ok ())
    (fun _ _ _ => Except.ok true) "m" "AAAA" "!"
  ⟨h.1, h.2 fun _ _ => ⟨true, rfl⟩⟩

/-- C8: listing a user's documents returns exactly the records whose
owner is that user (as their camelCase views), ordered newest-first by
the timestamp comparator; between records with identical timestamps only
the non-strict ordering is guaranteed. -/
theorem getUserDocuments_owner_newest_first (dateMs : String → Int)
    (userId : String) (st : LocalState) :
    List.Perm (getUserDocuments dateMs userId st)
      ((st.documents.filter fun d => d.user_id = userId).map dbToDocument) ∧
    List.Pairwise (fun a b => dateMs b.timestamp ≤ dateMs a.timestamp)
      (getUserDocuments dateMs userId st) ∧
    (∀ doc ∈ getUserDocuments dateMs userId st,
      ∃ d ∈ st.documents, d.user_id = userId ∧ doc = dbToDocument d) ∧
    ∀ d ∈ st.documents, d.user_id = userId →
      dbToDocument d ∈ getUserDocuments dateMs userId st := by
  have hperm : List.Perm (getUserDocuments dateMs userId st)
      ((st.documents.filter fun d => d.user_id = userId).map dbToDocument) := by
    unfold getUserDocuments
    exact List.mergeSort_perm _ _
  refine ⟨hperm, ?_, ?_, ?_⟩
  · have hs := @List.sorted_mergeSort Document
      (fun a b => decide (dateMs b.timestamp ≤ dateMs a.timestamp))
      (fun a b c hab hbc => by simp at hab hbc ⊢; omega)
      (fun a b => by simp; omega)
      ((st.documents.filter fun d => d.user_id = userId).map dbToDocument)
    unfold getUserDocuments
    exact hs.imp (by simp)
  · intro doc hdoc
    rcases List.mem_map.mp (hperm.mem_iff.mp hdoc) with ⟨d, hd, rfl⟩
    rcases List.mem_filter.mp hd with ⟨hmem, hpred⟩
    exact ⟨d, hmem, by simpa using hpred, rfl⟩
  · intro d hd hu
    exact hperm.mem_iff.mpr
      (List.mem_map_of_mem _ (List.mem_filter.mpr ⟨hd, by simp [hu]⟩))

/-- The C8 theorem at a concrete two-owner store: the caller's record is
listed. -/
theorem getUserDocuments_owner_newest_first_witness :
    dbToDocument ⟨"d1", "u", "f", "f", "h", "s", "t1", none, 0, "o", "de",
        "pdf", "human_made", none, none, "t1"⟩ ∈
      getUserDocuments (fun _ => (0 : Int)) "u"
        ⟨[], [⟨"d1", "u", "f", "f", "h", "s", "t1", none, 0, "o", "de",
               "pdf", "human_made", none, none, "t1"⟩,
              ⟨"d2", "v", "g", "g", "h2", "s2", "t2", none, 0, "o", "de",
               "pdf", "human_made", none, none, "t2"⟩], [], none⟩ :=
  (getUserDocuments_owner_newest_first (fun _ => (0 : Int)) "u"
    ⟨[], [⟨"d1", "u", "f", "f", "h", "s", "t1", none, 0, "o", "de",
           "pdf", "human_made", none, none, "t1"⟩,
          ⟨"d2", "v", "g", "g", "h2", "s2", "t2", none, 0, "o", "de",
           "pdf", "human_made", none, none, "t2"⟩], [], none⟩).2.2.2
    ⟨"d1", "u", "f", "f", "h", "s", "t1", none, 0, "o", "de",
     "pdf", "human_made", none, none, "t1"⟩ (by decide) rfl

end Inventa

namespace Inventa

/-- C2: an upload whose file fingerprints to a value already present in
the registry fails and inserts nothing, with a message that distinguishes
the caller's own earlier record from another owner's (under the
authenticated user an upload presupposes); moreover every upload
preserves fingerprint uniqueness of the document set, so at most one
record per fingerprint ever exists. -/
theorem uploadDocument_duplicate_conflict (signFn : String → String → String)
    (dateMs : String → Int) (now : Int) (timestamp documentId userId : String)
    (data : UploadData) (st : LocalState) :
    (∀ existing, st.documents.find?
        (fun d => d.hash = generateSHA256Hash data.fileBytes) = some existing →
      (uploadDocument signFn dateMs now timestamp documentId userId data
        st).1.success = false ∧
      (uploadDocument signFn dateMs now timestamp documentId userId data
        st).2.documents = st.documents ∧
      ∀ user, (getCurrentUser dateMs now st).1 = some user →
        (uploadDocument signFn dateMs now timestamp documentId userId data
          st).1.message =
          if existing.user_id = userId then
            "You have already registered this document"
          else "This document has already been registered by another user") ∧
    (st.documents.Pairwise (fun d1 d2 => d1.hash ≠ d2.hash) →
      ((uploadDocument signFn dateMs now timestamp documentId userId data
        st).2.documents).Pairwise fun d1 d2 => d1.hash ≠ d2.hash) := by
  obtain ⟨hdocs, -, -⟩ := getCurrentUser_documents dateMs now st
  constructor
  · intro existing hdup
    unfold uploadDocument
    dsimp only
    cases hu : (getCurrentUser dateMs now st).1 with
    | none =>
      refine ⟨rfl, hdocs, fun user huser => ?_⟩
      cases huser
    | some user =>
      dsimp only
      rw [hdocs, hdup]
      dsimp only
      exact ⟨rfl, hdocs, fun _ _ => rfl⟩
  · intro hpw
    unfold uploadDocument
    dsimp only
    cases hu : (getCurrentUser dateMs now st).1 with
    | none =>
      dsimp only
      rwa [hdocs]
    | some user =>
      dsimp only
      rw [hdocs]
      cases hf : st.documents.find?
          (fun d => d.hash = generateSHA256Hash data.fileBytes) with
      | some existing =>
        dsimp only
        rwa [hdocs]
      | none =>
        dsimp only
        rw [List.pairwise_append]
        refine ⟨hpw, List.pairwise_singleton _ _, ?_⟩
        intro a ha b hb
        rcases List.mem_singleton.mp hb with rfl
        have hne := List.find?_eq_none.mp hf a ha
        intro hEq
        exact hne (by simp [hEq])

/-- The C2 theorem at a concrete re-upload of an already registered file
by its own registrant. -/
theorem uploadDocument_duplicate_conflict_witness :
    (uploadDocument (fun m k => m ++ "#" ++ k) (fun _ => (0 : Int)) 0 "ts"
      "docid" "u1" ⟨[], "f", 0, "o", "de", "pdf", "human_made", none⟩
      ⟨[⟨"u1", "a@b.c", "al", "ph", "pub", "priv", "t0"⟩],
       [⟨"d0", "u1", "f", "f", generateSHA256Hash [], "sig", "t0",
         none, 0, "o", "de", "pdf", "human_made", none, none, "t0"⟩],
       [], some ⟨"u1", "tok", "exp"⟩⟩).1.success = false ∧
    (uploadDocument (fun m k => m ++ "#" ++ k) (fun _ => (0 : Int)) 0 "ts"
      "docid" "u1" ⟨[], "f", 0, "o", "de", "pdf", "human_made", none⟩
      ⟨[⟨"u1", "a@b.c", "al", "ph", "pub", "priv", "t0"⟩],
       [⟨"d0", "u1", "f", "f", generateSHA256Hash [], "sig", "t0",
         none, 0, "o", "de", "pdf", "human_made", none, none, "t0"⟩],
       [], some ⟨"u1", "tok", "exp"⟩⟩).1.message =
      "You have already registered this document" := by
  have h := (uploadDocument_duplicate_conflict (fun m k => m ++ "#" ++ k)
    (fun _ => (0 : Int)) 0 "ts" "docid" "u1"
    ⟨[], "f", 0, "o", "de", "pdf", "human_made", none⟩
    ⟨[⟨"u1", "a@b.c", "al", "ph", "pub", "priv", "t0"⟩],
     [⟨"d0", "u1", "f", "f", generateSHA256Hash [], "sig", "t0",
       none, 0, "o", "de", "pdf", "human_made", none, none, "t0"⟩],
     [], some ⟨"u1", "tok", "exp"⟩⟩).1
    ⟨"d0", "u1", "f", "f", generateSHA256Hash [], "sig", "t0",
     none, 0, "o", "de", "pdf", "human_made", none, none, "t0"⟩ (by decide)
  refine ⟨h.1, ?_⟩
  rw [h.2.2 ⟨"u1", "al", "a@b.c", some "pub", some "priv", some "t0"⟩
    (by decide)]
  decide

end Inventa

namespace Inventa

/-- C7: every login run, successful or failed, appends exactly one login
event; a failed run answers with the one generic message whatever the
cause (so two failed runs differing only in their cause answer alike),
while the appended event records the specific reason — "User not found"
for an unknown email, "Invalid password" for a wrong password, and no
reason on success. -/
theorem login_events_and_generic_errors
    (recId loginTime token expiresAt : String) (data : LoginData)
    (st : LocalState) (recId2 loginTime2 token2 expiresAt2 : String)
    (data2 : LoginData) (st2 : LocalState) :
    (∃ ev, (login recId loginTime token expiresAt data st).2.history =
        st.history ++ [ev] ∧
      ev.status = (if (login recId loginTime token expiresAt data
          st).1.success = true then "success" else "failed") ∧
      (st.users.find? (fun u => u.email = tsTrim (tsToLower data.email)) =
          none → ev.fail_reason = some "User not found") ∧
      (∀ u, st.users.find?
          (fun u' => u'.email = tsTrim (tsToLower data.email)) = some u →
        u.password_hash ≠ hashString data.password →
        ev.fail_reason = some "Invalid password") ∧
      ((login recId loginTime token expiresAt data st).1.success = true →
        ev.fail_reason = none)) ∧
    ((login recId loginTime token expiresAt data st).1.success = false →
      (login recId loginTime token expiresAt data st).1.message =
        "Invalid email or password") ∧
    ((login recId loginTime token expiresAt data st).1.success = false →
      (login recId2 loginTime2 token2 expiresAt2 data2 st2).1.success = false →
      (login recId loginTime token expiresAt data st).1.message =
        (login recId2 loginTime2 token2 expiresAt2 data2 st2).1.message) := by
  have hgen : ∀ (a b c d' : String) (dt : LoginData) (s : LocalState),
      (login a b c d' dt s).1.success = false →
      (login a b c d' dt s).1.message = "Invalid email or password" := by
    intro a b c d' dt s hfail
    unfold login at hfail ⊢
    dsimp only at hfail ⊢
    cases hf : s.users.find?
        (fun u => u.email = tsTrim (tsToLower dt.email)) with
    | none => rfl
    | some u =>
      rw [hf] at hfail
      dsimp only at hfail ⊢
      by_cases hp : u.password_hash = hashString dt.password
      · rw [if_neg (not_not_intro hp)] at hfail
        exact Bool.noConfusion hfail
      · rw [if_pos hp]
  refine ⟨?_, hgen recId loginTime token expiresAt data st, ?_⟩
  · unfold login recordLoginHistory
    dsimp only
    cases hf : st.users.find?
        (fun u => u.email = tsTrim (tsToLower data.email)) with
    | none =>
      refine ⟨_, rfl, rfl, fun _ => rfl, fun u hu => ?_, fun hs => ?_⟩
      · exact Option.noConfusion hu
      · exact Bool.noConfusion hs
    | some u =>
      dsimp only
      by_cases hp : u.password_hash = hashString data.password
      · rw [if_neg (not_not_intro hp)]
        refine ⟨_, rfl, rfl, fun hn => ?_, fun v hv hneq => ?_, fun _ => rfl⟩
        · exact Option.noConfusion hn
        · cases hv
          exact absurd hp hneq
      · rw [if_pos hp]
        refine ⟨_, rfl, rfl, fun hn => ?_, fun v hv hneq => ?_, fun hs => ?_⟩
        · exact Option.noConfusion hn
        · cases hv
          rfl
        · exact Bool.noConfusion hs
  · intro h1 h2
    rw [hgen recId loginTime token expiresAt data st h1,
      hgen recId2 loginTime2 token2 expiresAt2 data2 st2 h2]

/-- The C7 theorem at a concrete failed login against an empty user set:
the caller sees only the generic message. -/
theorem login_events_and_generic_errors_witness :
    (login "r" "l" "tk" "e" ⟨"a@b.c", "pw"⟩ ⟨[], [], [], none⟩).1.message =
      "Invalid email or password" :=
  (login_events_and_generic_errors "r" "l" "tk" "e" ⟨"a@b.c", "pw"⟩
    ⟨[], [], [], none⟩ "r" "l" "tk" "e" ⟨"a@b.c", "pw"⟩
    ⟨[], [], [], none⟩).2.1 (by decide)

/-- C10: a successful login returns a User, and both a successful login
and a getCurrentUser read under a live session hand back the stored
private key in the returned User's privateKey field. -/
theorem auth_returns_stored_private_key
    (recId loginTime token expiresAt : String) (data : LoginData)
    (st : LocalState) (dateMs : String → Int) (now : Int) (st' : LocalState) :
    ((login recId loginTime token expiresAt data st).1.success = true →
      ∃ usr, (login recId loginTime token expiresAt data st).1.user =
        some usr) ∧
    (∀ usr, (login recId loginTime token expiresAt data st).1.user =
        some usr →
      ∃ u, st.users.find? (fun v => v.email = tsTrim (tsToLower data.email)) =
          some u ∧ usr.privateKey = some u.private_key_encrypted) ∧
    (∀ usr, (getCurrentUser dateMs now st').1 = some usr →
      ∃ sess, st'.session = some sess ∧
        ∃ u, st'.users.find? (fun v => v.id = sess.userId) = some u ∧
          usr.privateKey = some u.private_key_encrypted) := by
  refine ⟨?_, ?_, ?_⟩
  · intro hsucc
    unfold login at hsucc ⊢
    dsimp only at hsucc ⊢
    cases hf : st.users.find?
        (fun u => u.email = tsTrim (tsToLower data.email)) with
    | none =>
      rw [hf] at hsucc
      exact Bool.noConfusion hsucc
    | some u =>
      rw [hf] at hsucc
      dsimp only at hsucc ⊢
      by_cases hp : u.password_hash = hashString data.password
      · rw [if_neg (not_not_intro hp)]
        exact ⟨_, rfl⟩
      · rw [if_pos hp] at hsucc
        exact Bool.noConfusion hsucc
  · intro usr husr
    unfold login at husr
    dsimp only at husr
    cases hf : st.users.find?
        (fun u => u.email = tsTrim (tsToLower data.email)) with
    | none =>
      rw [hf] at husr
      exact Option.noConfusion husr
    | some u =>
      rw [hf] at husr
      dsimp only at husr
      by_cases hp : u.password_hash = hashString data.password
      · rw [if_neg (not_not_intro hp)] at husr
        cases husr
        exact ⟨u, rfl, rfl⟩
      · rw [if_pos hp] at husr
        exact Option.noConfusion husr
  · intro usr husr
    unfold getCurrentUser at husr
    cases hsess : st'.session with
    | none =>
      rw [hsess] at husr
      exact Option.noConfusion husr
    | some sess =>
      rw [hsess] at husr
      dsimp only at husr
      by_cases hexp : dateMs sess.expiresAt < now
      · rw [if_pos hexp] at husr
        exact Option.noConfusion husr
      · rw [if_neg hexp] at husr
        cases hfu : st'.users.find? (fun u => u.id = sess.userId) with
        | none =>
          rw [hfu] at husr
          exact Option.noConfusion husr
        | some u =>
          rw [hfu] at husr
          dsimp only at husr
          cases husr
          exact ⟨sess, rfl, u, hfu, rfl⟩

/-- The C10 theorem at a concrete successful login: the returned user
carries the stored private key. -/
theorem auth_returns_stored_private_key_witness :
    ∃ u, ([⟨"u1", "a@b.c", "al", hashString "pw", "pub", "priv", "t0"⟩] :
        List DbUser).find?
        (fun v => v.email = tsTrim (tsToLower "a@b.c")) = some u ∧
      (⟨"u1", "al", "a@b.c", some "pub", some "priv", some "t0"⟩ :
        User).privateKey = some u.private_key_encrypted :=
  (auth_returns_stored_private_key "r" "l" "tk" "e" ⟨"a@b.c", "pw"⟩
    ⟨[⟨"u1", "a@b.c", "al", hashString "pw", "pub", "priv", "t0"⟩], [], [],
     none⟩ (fun _ => (0 : Int)) 0
    ⟨[⟨"u1", "a@b.c", "al", hashString "pw", "pub", "priv", "t0"⟩], [], [],
     none⟩).2.1
    ⟨"u1", "al", "a@b.c", some "pub", some "priv", some "t0"⟩ (by decide)

end Inventa
